import Mathlib

/-
Verification of the bq76pl536 battery-monitor driver (bq76pl536.c / bq76pl536.h).

The driver talks to a daisy chain of TI bq76PL536 monitor ICs over SPI.  This
development gives a shallow embedding of its protocol core:

  * the CRC-8 used on every wire frame (Linux crc8 with an MSB-first table
    built by crc8_populate_msb(table, 7), i.e. polynomial x^8+x^2+x^1+x^0,
    initial value 0);
  * the transaction batch (bq_control with its xfer array of MAX_XFER slots,
    the global xfer_index / byte_index bookkeeping, writeRegister and
    readRegister);
  * the discovery state machine search_pack;
  * the telemetry aggregator get_voltages with its bounded data-ready poll;
  * the cell census performed by bq_probe.

The SPI bus itself is an external primitive; wherever the driver consumes a
bus result (spi_sync status, received payload bytes) the embedding takes that
result as an explicit oracle argument.  Machine integers are modelled as Nat
or Int with explicit truncation: a store through a u8 pointer becomes
reduction mod 256 (Euclidean, so nonnegative), C int division becomes
Int.tdiv (truncation toward zero), exactly as on the 32-bit target.
-/

namespace Bq76

/-! ## CRC-8 (Linux crc8, MSB-first table for polynomial 0x07, init 0) -/

/-- One MSB-first CRC round: t = (t << 1) ^ (t & 0x80 ? 0x07 : 0), in u8
arithmetic.  This is the round used by crc8_populate_msb to build the table
the driver installs with crc8_populate_msb(crc8_table, 7). -/
def crc8Round (a : Nat) : Nat :=
  if a &&& 128 ≠ 0 then ((a <<< 1) ^^^ 7) % 256 else (a <<< 1) % 256

/-- Inverse of crc8Round on bytes: the polynomial 0x07 has bit 0 set while a
left shift clears bit 0, so bit 0 of the output records which branch was
taken. -/
def crc8RoundInv (b : Nat) : Nat :=
  if b % 2 = 1 then ((b ^^^ 7) >>> 1) + 128 else b >>> 1

/-- k iterated CRC rounds. -/
def crc8Rounds : Nat → Nat → Nat
  | 0, a => a
  | k + 1, a => crc8Rounds k (crc8Round a)

/-- Eight CRC rounds: the table entry crc8_table[a] of the Linux MSB-first
CRC-8 table for polynomial 0x07. -/
def crc8Byte (a : Nat) : Nat := crc8Rounds 8 a

/-- One step of Linux crc8: crc = table[(crc ^ *pdata) & 0xff]. -/
def crc8Step (c b : Nat) : Nat := crc8Byte ((c ^^^ b) % 256)

/-- Linux crc8(table, pdata, nbytes, crc): fold crc8Step over the message
starting from the given crc. -/
def crc8Acc (c : Nat) (l : List Nat) : Nat := l.foldl crc8Step c

/-- crc8 over a whole message with initial value 0, as used by the driver. -/
def crc8 (l : List Nat) : Nat := crc8Acc 0 l

/-! ## Constants from bq76pl536.c / bq76pl536.h -/

/-- MAX_XFER: number of spi_transfer slots in bq_control.xfer. -/
def MAX_XFER : Int := 10

/-- EFAULT, the errno the driver returns (negated) on overflow and CRC
errors. -/
def EFAULT : Int := 14

/-- AC_ADDR_RQST (0x80), the address-request bit of ADDRESS_CONTROL. -/
def AC_ADDR_RQST : Nat := 128

/-- CELL_MISSING_THRESHOLD: raw readings at or below this mark a floating
cell tap. -/
def CELL_MISSING_THRESHOLD : Int := 1000

/-- The six candidate cell-voltage register offsets VCELL1..VCELL6
(0x03, 0x05, ..., 0x0D), i.e. the values taken by j in
for (j = VCELL1; j <= VCELL6; j += 2). -/
def vcellOffsets : List Nat := [3, 5, 7, 9, 11, 13]

/-- Store of a C int through a u8 pointer: value mod 2^8, nonnegative. -/
def toByte (x : Int) : Nat := (Int.emod x 256).toNat

/-! ## Chain transport: the transaction batch

The C state is the global bq_control bq_ctl plus the globals xfer_index and
byte_index.  The embedding keeps the two indices, a log of every byte stored
into tx_buff (in store order), and a log of every xfer slot index written.
The xfer array has valid slots 0 .. MAX_XFER-1; a logged slot index ≥
MAX_XFER is a write past the end of the array. -/

structure BqCtl where
  xferIndex : Int
  byteIndex : Nat
  txData : List Nat
  slotWrites : List Int
deriving Repr, DecidableEq

/-- State right after bq_prepare_spi_message: xfer_index = -1, byte_index = 0
(the byte and slot logs record history and are not buffers, so they persist). -/
def bqPrepare (s : BqCtl) : BqCtl := { s with xferIndex := -1, byteIndex := 0 }

/-- A fresh context (as after the first bq_prepare_spi_message). -/
def initCtl : BqCtl := ⟨-1, 0, [], []⟩

/-- writeRegister(address, reg, data) from bq76pl536.c:131-166.  Checks
xfer_index >= MAX_XFER BEFORE incrementing, then increments and uses slot
xfer[xfer_index]; queues the 4 tx bytes
[address<<1 | 1, reg, data, crc8(first 3)].  Returns 0, or -EFAULT on the
overflow check. -/
def writeRegister (s : BqCtl) (address reg data : Nat) : Int × BqCtl :=
  if MAX_XFER ≤ s.xferIndex then (-EFAULT, s)
  else
    let xi := s.xferIndex + 1
    let command := ((address <<< 1) % 256) ||| 1
    let frame := [command, reg, data]
    (0, { xferIndex := xi
          byteIndex := s.byteIndex + 4
          txData := s.txData ++ frame ++ [crc8 frame]
          slotWrites := s.slotWrites ++ [xi] })

/-- What the bus hands back for one readRegister call: the spi_sync status,
the count payload bytes that land at rx_buf+3, and the trailing CRC byte at
rx_buf+3+count. -/
structure BusResponse where
  status : Int
  payload : List Nat
  crcByte : Nat

/-- readRegister(address, reg, count) from bq76pl536.c:172-243.  Rejects
count ∉ {1,2}; increments xfer_index and THEN checks overflow (so the
increment is not rolled back on failure); queues the 3 tx bytes
[address<<1, reg, count]; runs the batch (spi_sync, whose status and
received bytes are the resp oracle); recomputes the CRC over the 3 tx bytes
followed by the count payload bytes and compares it with the trailing CRC
byte; on match returns the payload as a value (single byte, or big-endian
pair p0<<8 | p1). -/
def readRegister (s : BqCtl) (address reg : Nat) (count : Nat) (resp : BusResponse) :
    Int × BqCtl :=
  if count ≠ 1 ∧ count ≠ 2 then (-EFAULT, s)
  else
    let xi := s.xferIndex + 1
    if MAX_XFER ≤ xi then (-EFAULT, { s with xferIndex := xi })
    else
      let command := (address <<< 1) % 256
      let tx := [command, reg, count]
      let s' : BqCtl :=
        { xferIndex := xi
          byteIndex := s.byteIndex + 3 + count + 1
          txData := s.txData ++ tx
          slotWrites := s.slotWrites ++ [xi] }
      if resp.status ≠ 0 then (resp.status, s')
      else
        let crc := crc8Acc (crc8 tx) (resp.payload.take count)
        if crc ≠ resp.crcByte then (-EFAULT, s')
        else if count = 1 then ((resp.payload.getD 0 0 : Nat), s')
        else (((resp.payload.getD 0 0 <<< 8) ||| resp.payload.getD 1 0 : Nat), s')

/-- The CRC byte a well-behaved device appends to a read response: CRC-8 of
the 3 request bytes [address<<1, reg, count] followed by the payload. -/
def goodCrc (address reg count : Nat) (payload : List Nat) : Nat :=
  crc8 ([(address <<< 1) % 256, reg, count] ++ payload)

/-- The value readRegister decodes from a payload: the single byte for
count = 1, the big-endian pair for count = 2. -/
def decodeVal (count : Nat) (payload : List Nat) : Int :=
  if count = 1 then (payload.getD 0 0 : Nat)
  else ((payload.getD 0 0 <<< 8) ||| payload.getD 1 0 : Nat)

/-- Flip bit i of byte j of a byte list. -/
def flipBitAt (l : List Nat) (j i : Nat) : List Nat :=
  l.set j ((l.getD j 0) ^^^ (1 <<< i))

/-- k writeRegister calls queued on a fresh context (all succeed while slots
remain). -/
def queueWrites : Nat → BqCtl
  | 0 => initCtl
  | k + 1 => (writeRegister (queueWrites k) 63 48 1).2

/-! ## Discovery: search_pack (bq76pl536.c:460-502)

The bus is abstracted by the oracle verify : Nat → Int, giving the value
readRegister(n, ADDRESS_CONTROL, 1) produces for address n (negative for a
failed read).  The embedding threads the xfer_index through the loop so that
the overflow guards of writeRegister and readRegister are modelled: a failed
writeRegister makes search_pack return its status truncated to u8 (the C
return type), and that exit is flagged with writeErr so it can be told apart.
The trace records every address value written to ADDRESS_CONTROL through the
discovery pseudo-address, in order. -/

structure SearchOut where
  value : Nat
  trace : List Nat
  writeErr : Bool
deriving Repr, DecidableEq

inductive SearchRes where
  | done (out : SearchOut)
  | inner (n : Nat) (trace : List Nat)
deriving Repr, DecidableEq

/-- The inner do-while of search_pack, entered with loop counter n and with
left = look_for - n - 1 further iterations allowed by the while (n < look_for)
condition.  Each iteration: n++; writeRegister(DISCOVERY_ADDR,
ADDRESS_CONTROL, n) (overflow guard on xi; on failure search_pack returns
-EFAULT truncated to its u8 return type, flagged writeErr);
readRegister(n, ADDRESS_CONTROL, 1), whose value is -EFAULT when its own
overflow guard fires at xi+2 and the verify oracle's answer otherwise; a
negative value returns n-1, a value other than n | AC_ADDR_RQST returns n-1;
otherwise bq_prepare_spi_message() resets xfer_index to -1 and the loop
continues while n < look_for (i.e. while left > 0). -/
def searchInner (verify : Nat → Int) : Nat → Nat → Int → List Nat → SearchRes
  | 0, n, xi, trace =>
    if MAX_XFER ≤ xi then .done ⟨toByte (-EFAULT), trace, true⟩
    else if (if MAX_XFER ≤ xi + 2 then -EFAULT else verify (n + 1)) < 0 then
      .done ⟨n + 1 - 1, trace ++ [n + 1], false⟩
    else if (if MAX_XFER ≤ xi + 2 then -EFAULT else verify (n + 1))
        ≠ (((n + 1) ||| AC_ADDR_RQST : Nat) : Int) then
      .done ⟨n + 1 - 1, trace ++ [n + 1], false⟩
    else .inner (n + 1) (trace ++ [n + 1])
  | left + 1, n, xi, trace =>
    if MAX_XFER ≤ xi then .done ⟨toByte (-EFAULT), trace, true⟩
    else if (if MAX_XFER ≤ xi + 2 then -EFAULT else verify (n + 1)) < 0 then
      .done ⟨n + 1 - 1, trace ++ [n + 1], false⟩
    else if (if MAX_XFER ≤ xi + 2 then -EFAULT else verify (n + 1))
        ≠ (((n + 1) ||| AC_ADDR_RQST : Nat) : Int) then
      .done ⟨n + 1 - 1, trace ++ [n + 1], false⟩
    else searchInner verify left (n + 1) (-1) (trace ++ [n + 1])

/-- The outer do-while of search_pack.  Each pass: writeRegister(BROADCAST,
RESET, RESET_COMMAND) (overflow guard; on failure search_pack returns the
int status truncated to its u8 return type), look_for++, then the inner loop
over n = 1..look_for; on inner completion the loop repeats while
n < devices_used.  The parameter lookFor is the C variable look_for BEFORE
the pass's increment, so after the increment the inner loop starting at
n = 0 has left = look_for - 0 - 1 = lookFor iterations left.  fuel bounds
the number of passes; none means the fuel ran out (never happens for fuel
larger than the number of passes actually taken). -/
def searchOuter (verify : Nat → Int) (devicesUsed : Nat) :
    Nat → Nat → Int → List Nat → Option SearchOut
  | 0, _, _, _ => none
  | fuel + 1, lookFor, xi, trace =>
    if MAX_XFER ≤ xi then some ⟨toByte (-EFAULT), trace, true⟩
    else
      match searchInner verify lookFor 0 (xi + 1) trace with
      | .done out => some out
      | .inner n trace' =>
        if n < devicesUsed then
          searchOuter verify devicesUsed fuel (lookFor + 1) (-1) trace'
        else some ⟨n, trace', false⟩

/-- search_pack (bq76pl536.c:460-502): bq_prepare_spi_message, then the
nested discovery loops with look_for starting at 0 and pre-incremented each
outer pass.  devicesUsed + 1 passes of fuel always suffice. -/
def search_pack (verify : Nat → Int) (devicesUsed : Nat) : Option SearchOut :=
  searchOuter verify devicesUsed (devicesUsed + 1) 0 (-1) []

/-- The ascending address block [n+1, n+2, ..., n+k]. -/
def ascFrom (n : Nat) : Nat → List Nat
  | 0 => []
  | k + 1 => (n + 1) :: ascFrom (n + 1) k

/-! ## Telemetry aggregator: get_voltages (bq76pl536.c:246-332) -/

/-- The data-ready poll of get_voltages, with the C loop variable tries and
left = 6 - tries (the loop body runs, reads DEVICE_STATUS of device 1, then
gives up when the pre-increment check tries++ > 5 fires, i.e. when left = 0).
pr i is the int readRegister(1, DEVICE_STATUS, 1) returned on the read with
tries = i; the C data-ready test (temp & DRDY) == 0 with DRDY = 0x01 is
evenness of that int.  Result: (data ready seen?, number of reads performed
from this iteration on). -/
def pollFrom (pr : Nat → Int) (tries : Nat) : Nat → Bool × Nat
  | 0 => (false, 1)
  | left + 1 =>
    if Int.emod (pr tries) 2 = 0 then
      let r := pollFrom pr (tries + 1) left
      (r.1, r.2 + 1)
    else (true, 1)

/-- The whole poll loop: tries starts at 0, so 6 more iterations may loop. -/
def pollLoop (pr : Nat → Int) : Bool × Nat := pollFrom pr 0 6

/-- Bus oracle for one get_voltages cycle: the spi_sync status of the
ADC-start broadcast, the poll reads, and the int value each subsequent
readRegister call returns (indexed by cell position in the cells table, or
by device address). -/
structure VoltOracle where
  startStatus : Int
  pollRead : Nat → Int
  cellRead : Nat → Int
  temp1Read : Nat → Int
  temp2Read : Nat → Int
  statusRead : Nat → Int
  faultRead : Nat → Int
  alertRead : Nat → Int
  cuvRead : Nat → Int
  covRead : Nat → Int

/-- The voltage byte emitted for a raw reading: the C statement
*p++ = ((temp * 6250) / 327660) — int multiplication, truncating int
division, then the store through the u8 pointer p. -/
def voltByte (raw : Int) : Nat := toByte (Int.tdiv (raw * 6250) 327660)

/-- The temperature byte: temp -= 2048; temp /= 120; *p++ = temp. -/
def tempByte (raw : Int) : Nat := toByte (Int.tdiv (raw - 2048) 120)

/-- The 8 bytes emitted for device i: cells_per_device[i], two temperatures,
then DEVICE_STATUS, FAULT_STATUS, ALERT_STATUS, CUV_FAULT, COV_FAULT, each
readRegister result stored straight through the u8 pointer. -/
def deviceBlock (o : VoltOracle) (cpd : Nat → Nat) (i : Nat) : List Nat :=
  [cpd i % 256, tempByte (o.temp1Read i), tempByte (o.temp2Read i),
   toByte (o.statusRead i), toByte (o.faultRead i), toByte (o.alertRead i),
   toByte (o.cuvRead i), toByte (o.covRead i)]

/-- Bytes written before the trailing CRC: total_cell_count, one voltage byte
per entry of the cells table (totalCellCount entries, the i-th read via
cells[i]), devices_used, then the per-device blocks for i = 1..devices_used. -/
def telemetryBody (o : VoltOracle) (totalCellCount devicesUsed : Nat)
    (cpd : Nat → Nat) : List Nat :=
  (totalCellCount % 256)
    :: ((List.range totalCellCount).map (fun i => voltByte (o.cellRead i))
      ++ (devicesUsed % 256)
        :: ((List.range devicesUsed).map (fun i0 => deviceBlock o cpd (i0 + 1))).flatten)

/-- get_voltages (bq76pl536.c:246-332) as the list of bytes written to the
caller's buffer; the C return value is the length of that list (0 = empty
result).  A nonzero ADC-start status or a data-ready poll that gives up
returns the empty result; otherwise the body bytes are emitted followed by
one crc8 byte over all of them. -/
def get_voltages (o : VoltOracle) (totalCellCount devicesUsed : Nat)
    (cpd : Nat → Nat) : List Nat :=
  if o.startStatus ≠ 0 then []
  else if (pollLoop o.pollRead).1 then
    let body := telemetryBody o totalCellCount devicesUsed cpd
    body ++ [crc8 body]
  else []

/-- Spec-side definition, following the specification words only: rounded
division round(a / b) to nearest, used by the claimed voltage formula
round(raw16 * 6250 / 327660). -/
def roundDivSpec (a b : Nat) : Nat := (a + b / 2) / b

/-- An oracle whose device is ready at once and whose every register read
fails with -EFAULT = -14. -/
def errOracle : VoltOracle :=
  ⟨0, fun _ => 1, fun _ => -14, fun _ => -14, fun _ => -14, fun _ => -14,
   fun _ => -14, fun _ => -14, fun _ => -14, fun _ => -14⟩

/-- An oracle whose device is ready at once and whose reads return fixed
small values. -/
def okOracle : VoltOracle :=
  ⟨0, fun _ => 1, fun i => 1200 + i, fun _ => 2200, fun _ => 2300,
   fun _ => 129, fun _ => 0, fun _ => 0, fun _ => 0, fun _ => 0⟩

/-- An oracle that never reports data ready. -/
def idleOracle : VoltOracle :=
  ⟨0, fun _ => 0, fun _ => 0, fun _ => 0, fun _ => 0, fun _ => 0,
   fun _ => 0, fun _ => 0, fun _ => 0, fun _ => 0⟩

/-- An oracle whose device is ready at once and whose every cell-voltage
read returns the largest 16-bit raw reading. -/
def maxOracle : VoltOracle :=
  ⟨0, fun _ => 1, fun _ => 65535, fun _ => 0, fun _ => 0, fun _ => 0,
   fun _ => 0, fun _ => 0, fun _ => 0, fun _ => 0⟩

/-! ## Cell census: the probe loops of bq_probe (bq76pl536.c:633-688)

read i j is the int readRegister(i, j, 2) returns for device i, register
offset j.  The counting pass and the fill pass read the same registers, so
with a deterministic oracle they agree. -/

/-- chip_cell_count for device i: among the six VCELL offsets, those whose
reading exceeds CELL_MISSING_THRESHOLD. -/
def chipCellCount (read : Nat → Nat → Int) (i : Nat) : Nat :=
  (vcellOffsets.filter (fun j => CELL_MISSING_THRESHOLD < read i j)).length

/-- total_cell_count accumulated over devices 1..count. -/
def totalCellCount (read : Nat → Nat → Int) (count : Nat) : Nat :=
  ((List.range count).map (fun i0 => chipCellCount read (i0 + 1))).sum

/-- The cells array filled by the second probe loop: for each device
i = 1..count in order and each offset j = VCELL1..VCELL6 in order, the pair
(chip = i, index = j) whenever the reading exceeds the threshold. -/
def cellsTable (read : Nat → Nat → Int) (count : Nat) : List (Nat × Nat) :=
  (List.range count).flatMap
    (fun i0 => (vcellOffsets.filter
      (fun j => CELL_MISSING_THRESHOLD < read (i0 + 1) j)).map
        (fun j => (i0 + 1, j)))

/-- Ordering of CellTap entries: ascending device address, then ascending
register offset. -/
def tapLt (a b : Nat × Nat) : Prop :=
  a.1 < b.1 ∨ (a.1 = b.1 ∧ a.2 < b.2)

/-! ## Supporting lemmas: the CRC-8 round is a bijection on bytes -/

theorem crc8Round_lt (a : Nat) : crc8Round a < 256 := by
  unfold crc8Round
  split <;> exact Nat.mod_lt _ (by norm_num)

set_option maxRecDepth 4000 in
theorem crc8Round_leftInv : ∀ a, a < 256 → crc8RoundInv (crc8Round a) = a := by decide

theorem crc8Round_inj {a b : Nat} (ha : a < 256) (hb : b < 256)
    (h : crc8Round a = crc8Round b) : a = b := by
  rw [← crc8Round_leftInv a ha, ← crc8Round_leftInv b hb, h]

theorem crc8Rounds_lt : ∀ k a, a < 256 → crc8Rounds k a < 256
  | 0, _, h => h
  | k + 1, a, _ => crc8Rounds_lt k (crc8Round a) (crc8Round_lt a)

theorem crc8Rounds_inj : ∀ k {a b}, a < 256 → b < 256 →
    crc8Rounds k a = crc8Rounds k b → a = b
  | 0, _, _, _, _, h => h
  | k + 1, a, b, ha, hb, h =>
    crc8Round_inj ha hb
      (crc8Rounds_inj k (crc8Round_lt a) (crc8Round_lt b) h)

theorem crc8Byte_lt (a : Nat) : crc8Byte a < 256 :=
  crc8Rounds_lt 7 (crc8Round a) (crc8Round_lt a)

theorem crc8Byte_inj {a b : Nat} (ha : a < 256) (hb : b < 256)
    (h : crc8Byte a = crc8Byte b) : a = b :=
  crc8Rounds_inj 8 ha hb h

theorem crc8Step_lt (c b : Nat) : crc8Step c b < 256 := crc8Byte_lt _

theorem xor_lt_256 {a b : Nat} (ha : a < 256) (hb : b < 256) : a ^^^ b < 256 :=
  Nat.xor_lt_two_pow (n := 8) ha hb

theorem xor_left_cancel {c b b' : Nat} (h : c ^^^ b = c ^^^ b') : b = b' := by
  have h2 := congrArg (fun x => c ^^^ x) h
  simpa [← Nat.xor_assoc, Nat.xor_self, Nat.zero_xor] using h2

theorem xor_right_cancel {c c' b : Nat} (h : c ^^^ b = c' ^^^ b) : c = c' := by
  have h2 := congrArg (fun x => x ^^^ b) h
  simpa [Nat.xor_assoc, Nat.xor_self, Nat.xor_zero] using h2

theorem xor_ne_of_ne_zero {a e : Nat} (he : e ≠ 0) : a ^^^ e ≠ a := by
  intro h
  apply he
  have h2 := congrArg (fun x => a ^^^ x) h
  simpa [← Nat.xor_assoc, Nat.xor_self, Nat.zero_xor] using h2

theorem crc8Step_inj_right {c b b' : Nat} (hc : c < 256) (hb : b < 256) (hb' : b' < 256)
    (h : crc8Step c b = crc8Step c b') : b = b' := by
  have hx : (c ^^^ b) % 256 = (c ^^^ b') % 256 :=
    crc8Byte_inj (Nat.mod_lt _ (by norm_num)) (Nat.mod_lt _ (by norm_num)) h
  rw [Nat.mod_eq_of_lt (xor_lt_256 hc hb), Nat.mod_eq_of_lt (xor_lt_256 hc hb')] at hx
  exact xor_left_cancel hx

theorem crc8Step_inj_left {c c' b : Nat} (hc : c < 256) (hc' : c' < 256) (hb : b < 256)
    (h : crc8Step c b = crc8Step c' b) : c = c' := by
  have hx : (c ^^^ b) % 256 = (c' ^^^ b) % 256 :=
    crc8Byte_inj (Nat.mod_lt _ (by norm_num)) (Nat.mod_lt _ (by norm_num)) h
  rw [Nat.mod_eq_of_lt (xor_lt_256 hc hb), Nat.mod_eq_of_lt (xor_lt_256 hc' hb)] at hx
  exact xor_right_cancel hx

theorem crc8Acc_lt (l : List Nat) : ∀ c, c < 256 → crc8Acc c l < 256 := by
  induction l with
  | nil => exact fun c h => h
  | cons x xs ih => exact fun c _ => ih (crc8Step c x) (crc8Step_lt c x)

theorem crc8_lt (l : List Nat) : crc8 l < 256 :=
  crc8Acc_lt l 0 (by norm_num)

theorem crc8_append (l₁ l₂ : List Nat) : crc8 (l₁ ++ l₂) = crc8Acc (crc8 l₁) l₂ := by
  simp [crc8, crc8Acc, List.foldl_append]

theorem shiftBit_lt_256 {i : Nat} (hi : i < 8) : 1 <<< i < 256 := by
  rw [Nat.one_shiftLeft]
  calc 2 ^ i < 2 ^ 8 := Nat.pow_lt_pow_right (by norm_num) hi
  _ = 256 := by norm_num

theorem shiftBit_ne_zero (i : Nat) : 1 <<< i ≠ 0 := by
  rw [Nat.one_shiftLeft]
  exact pow_ne_zero i (by norm_num)

/-! ## C9: the write frame -/

/-- C9: for every address, register and data byte, writeRegister (when a
transfer slot is free) succeeds and queues exactly the 4 bytes
[address<<1 | 1, register, data, c] where c is the CRC-8 (polynomial
x^8+x^2+x^1+x^0, init 0) of the first 3 bytes. -/
theorem writeRegister_encode (s : BqCtl) (address reg data : Nat)
    (hov : ¬ MAX_XFER ≤ s.xferIndex) :
    (writeRegister s address reg data).1 = 0 ∧
    (writeRegister s address reg data).2.txData =
      s.txData ++ [((address <<< 1) % 256) ||| 1, reg, data,
        crc8 [((address <<< 1) % 256) ||| 1, reg, data]] := by
  simp [writeRegister, hov]

/-- Witness for C9 at a concrete input: queueing a write of data 0x35 to
register 0x3a of device 5 on a fresh batch. -/
theorem writeRegister_encode_witness :
    (writeRegister initCtl 5 58 53).1 = 0 ∧
    (writeRegister initCtl 5 58 53).2.txData =
      initCtl.txData ++ [((5 <<< 1) % 256) ||| 1, 58, 53,
        crc8 [((5 <<< 1) % 256) ||| 1, 58, 53]] :=
  writeRegister_encode initCtl 5 58 53 (by decide)

/-! ## C3: behaviour of a full batch -/

/-- C3 (the failing input): with 10 transactions already queued
(xfer_index = MAX_XFER - 1, all valid slots 0..MAX_XFER-1 in use), one more
writeRegister does NOT fail: it returns 0 and records a store to xfer slot
MAX_XFER, one past the end of the xfer array; and one more readRegister does
return -EFAULT but has already incremented xfer_index, so the batch state is
not left unchanged. -/
theorem batch_overflow_unsound :
    (queueWrites 10).xferIndex = MAX_XFER - 1
    ∧ (writeRegister (queueWrites 10) 63 48 1).1 = 0
    ∧ (writeRegister (queueWrites 10) 63 48 1).2.slotWrites.getLast? = some MAX_XFER
    ∧ ¬ MAX_XFER < MAX_XFER
    ∧ (readRegister (queueWrites 10) 1 59 1 ⟨0, [129], 0⟩).1 = -EFAULT
    ∧ (readRegister (queueWrites 10) 1 59 1 ⟨0, [129], 0⟩).2.xferIndex
        ≠ (queueWrites 10).xferIndex := by
  exact ⟨by decide, by decide, by decide, by decide, by decide, by decide⟩

/-! ## C1: readRegister decodes good frames and rejects corrupted ones -/

@[simp] theorem crc8Acc_nil (c : Nat) : crc8Acc c [] = c := rfl

@[simp] theorem crc8Acc_cons (c b : Nat) (l : List Nat) :
    crc8Acc c (b :: l) = crc8Acc (crc8Step c b) l := rfl

/-- readRegister on a bus that returns status 0: the result value is the
decoded payload when the recomputed CRC matches the trailing byte, and
-EFAULT otherwise. -/
theorem readRegister_fst (s : BqCtl) (address reg count : Nat) (payload : List Nat)
    (crcB : Nat) (hc : count = 1 ∨ count = 2) (hov : ¬ MAX_XFER ≤ s.xferIndex + 1) :
    (readRegister s address reg count ⟨0, payload, crcB⟩).1 =
      if crc8Acc (crc8 [(address <<< 1) % 256, reg, count]) (payload.take count) = crcB
      then decodeVal count payload else -EFAULT := by
  rcases hc with rfl | rfl <;>
    simp [readRegister, decodeVal, hov, ite_not, apply_ite] <;>
    split <;> simp_all

/-- C1: for every address, register and count ∈ {1,2}, when the response
carries the CRC-8 (poly x^8+x^2+x^1+x^0, init 0) of the 3 request bytes
followed by the payload, readRegister returns the injected value (the single
byte for count = 1, the big-endian pair for count = 2); and flipping any one
bit of the payload or of the CRC byte makes readRegister return -EFAULT (the
CRC error) so that no value is produced. -/
theorem readRegister_decode (s : BqCtl) (address reg count : Nat) (payload : List Nat)
    (hc : count = 1 ∨ count = 2) (hp : payload.length = count)
    (hpb : ∀ b ∈ payload, b < 256) (hov : ¬ MAX_XFER ≤ s.xferIndex + 1) :
    (readRegister s address reg count ⟨0, payload, goodCrc address reg count payload⟩).1
        = decodeVal count payload
    ∧ (∀ j, j < count → ∀ i, i < 8 →
        (readRegister s address reg count
          ⟨0, flipBitAt payload j i, goodCrc address reg count payload⟩).1 = -EFAULT)
    ∧ (∀ i, i < 8 →
        (readRegister s address reg count
          ⟨0, payload, goodCrc address reg count payload ^^^ (1 <<< i)⟩).1 = -EFAULT) := by
  rcases hc with rfl | rfl
  · obtain ⟨p0, rfl⟩ := List.length_eq_one.mp hp
    have hp0 : p0 < 256 := hpb p0 (by simp)
    have hA : goodCrc address reg 1 [p0]
        = crc8Step (crc8 [(address <<< 1) % 256, reg, 1]) p0 := by
      unfold goodCrc
      rw [crc8_append]
      rfl
    refine ⟨?_, ?_, ?_⟩
    · rw [readRegister_fst s address reg 1 [p0] (goodCrc address reg 1 [p0])
        (Or.inl rfl) hov, if_pos (by rw [hA]; rfl)]
    · intro j hj i hi
      have hj0 : j = 0 := by omega
      subst hj0
      have hfl : flipBitAt [p0] 0 i = [p0 ^^^ (1 <<< i)] := by simp [flipBitAt]
      rw [hfl, readRegister_fst s address reg 1 [p0 ^^^ (1 <<< i)]
        (goodCrc address reg 1 [p0]) (Or.inl rfl) hov, if_neg]
      intro h
      rw [hA] at h
      have h2 : crc8Step (crc8 [(address <<< 1) % 256, reg, 1]) (p0 ^^^ (1 <<< i))
          = crc8Step (crc8 [(address <<< 1) % 256, reg, 1]) p0 := h
      have h3 := crc8Step_inj_right (crc8_lt _)
        (xor_lt_256 hp0 (shiftBit_lt_256 hi)) hp0 h2
      exact xor_ne_of_ne_zero (shiftBit_ne_zero i) h3
    · intro i hi
      rw [readRegister_fst s address reg 1 [p0]
        (goodCrc address reg 1 [p0] ^^^ (1 <<< i)) (Or.inl rfl) hov, if_neg]
      intro h
      have h2 : goodCrc address reg 1 [p0] ^^^ (1 <<< i) = goodCrc address reg 1 [p0] := by
        rw [hA]
        exact h.symm
      exact xor_ne_of_ne_zero (shiftBit_ne_zero i) h2
  · obtain ⟨p0, p1, rfl⟩ := List.length_eq_two.mp hp
    have hp0 : p0 < 256 := hpb p0 (by simp)
    have hp1 : p1 < 256 := hpb p1 (by simp)
    have hA : goodCrc address reg 2 [p0, p1]
        = crc8Step (crc8Step (crc8 [(address <<< 1) % 256, reg, 2]) p0) p1 := by
      unfold goodCrc
      rw [crc8_append]
      rfl
    refine ⟨?_, ?_, ?_⟩
    · rw [readRegister_fst s address reg 2 [p0, p1] (goodCrc address reg 2 [p0, p1])
        (Or.inr rfl) hov, if_pos (by rw [hA]; rfl)]
    · intro j hj i hi
      have hj01 : j = 0 ∨ j = 1 := by omega
      rcases hj01 with rfl | rfl
      · have hfl : flipBitAt [p0, p1] 0 i = [p0 ^^^ (1 <<< i), p1] := by
          simp [flipBitAt]
        rw [hfl, readRegister_fst s address reg 2 [p0 ^^^ (1 <<< i), p1]
          (goodCrc address reg 2 [p0, p1]) (Or.inr rfl) hov, if_neg]
        intro h
        rw [hA] at h
        have h2 : crc8Step (crc8Step (crc8 [(address <<< 1) % 256, reg, 2])
              (p0 ^^^ (1 <<< i))) p1
            = crc8Step (crc8Step (crc8 [(address <<< 1) % 256, reg, 2]) p0) p1 := h
        have h3 := crc8Step_inj_left (crc8Step_lt _ _) (crc8Step_lt _ _) hp1 h2
        have h4 := crc8Step_inj_right (crc8_lt _)
          (xor_lt_256 hp0 (shiftBit_lt_256 hi)) hp0 h3
        exact xor_ne_of_ne_zero (shiftBit_ne_zero i) h4
      · have hfl : flipBitAt [p0, p1] 1 i = [p0, p1 ^^^ (1 <<< i)] := by
          simp [flipBitAt]
        rw [hfl, readRegister_fst s address reg 2 [p0, p1 ^^^ (1 <<< i)]
          (goodCrc address reg 2 [p0, p1]) (Or.inr rfl) hov, if_neg]
        intro h
        rw [hA] at h
        have h2 : crc8Step (crc8Step (crc8 [(address <<< 1) % 256, reg, 2]) p0)
              (p1 ^^^ (1 <<< i))
            = crc8Step (crc8Step (crc8 [(address <<< 1) % 256, reg, 2]) p0) p1 := h
        have h3 := crc8Step_inj_right (crc8Step_lt _ _)
          (xor_lt_256 hp1 (shiftBit_lt_256 hi)) hp1 h2
        exact xor_ne_of_ne_zero (shiftBit_ne_zero i) h3
    · intro i hi
      rw [readRegister_fst s address reg 2 [p0, p1]
        (goodCrc address reg 2 [p0, p1] ^^^ (1 <<< i)) (Or.inr rfl) hov, if_neg]
      intro h
      have h2 : goodCrc address reg 2 [p0, p1] ^^^ (1 <<< i)
          = goodCrc address reg 2 [p0, p1] := by
        rw [hA]
        exact h.symm
      exact xor_ne_of_ne_zero (shiftBit_ne_zero i) h2

/-- Witness for C1: reading ADDRESS_CONTROL (0x3b) of device 1 with a
well-formed single-byte response 0x81 decodes to 0x81. -/
theorem readRegister_decode_witness :
    (readRegister initCtl 1 59 1 ⟨0, [129], goodCrc 1 59 1 [129]⟩).1
      = decodeVal 1 [129] :=
  (readRegister_decode initCtl 1 59 1 [129] (Or.inl rfl) rfl (by decide) (by decide)).1

/-! ## C2 and C6: the discovery state machine -/

/-- If every address n+1 .. n+left+1 verifies correctly, the inner loop
completes, having assigned those addresses in ascending order. -/
theorem searchInner_good (verify : Nat → Int) :
    ∀ left n (xi : Int) (trace : List Nat), xi ≤ 1 →
      (∀ m, n < m → m ≤ n + left + 1 → verify m = ((m ||| AC_ADDR_RQST : Nat) : Int)) →
      searchInner verify left n xi trace
        = .inner (n + left + 1) (trace ++ ascFrom n (left + 1)) := by
  intro left
  induction left with
  | zero =>
    intro n xi trace hxi hgood
    have hg1 : ¬ MAX_XFER ≤ xi := by simp only [MAX_XFER]; omega
    have hg2 : ¬ MAX_XFER ≤ xi + 2 := by simp only [MAX_XFER]; omega
    have hv := hgood (n + 1) (by omega) (by omega)
    have hnn : ¬ ((((n + 1) ||| AC_ADDR_RQST : Nat) : Int) < 0) :=
      not_lt.mpr (Int.natCast_nonneg _)
    simp only [searchInner]
    rw [if_neg hg1]
    simp only [if_neg hg2]
    rw [hv, if_neg hnn, if_neg (by simp :
      ¬ ((((n + 1) ||| AC_ADDR_RQST : Nat) : Int)
        ≠ (((n + 1) ||| AC_ADDR_RQST : Nat) : Int)))]
    simp [ascFrom]
  | succ l ih =>
    intro n xi trace hxi hgood
    have hg1 : ¬ MAX_XFER ≤ xi := by simp only [MAX_XFER]; omega
    have hg2 : ¬ MAX_XFER ≤ xi + 2 := by simp only [MAX_XFER]; omega
    have hv := hgood (n + 1) (by omega) (by omega)
    have hnn : ¬ ((((n + 1) ||| AC_ADDR_RQST : Nat) : Int) < 0) :=
      not_lt.mpr (Int.natCast_nonneg _)
    have hrec := ih (n + 1) (-1) (trace ++ [n + 1]) (by norm_num)
      (fun m hm1 hm2 => hgood m (by omega) (by omega))
    simp only [searchInner]
    rw [if_neg hg1]
    simp only [if_neg hg2]
    rw [hv, if_neg hnn, if_neg (by simp :
      ¬ ((((n + 1) ||| AC_ADDR_RQST : Nat) : Int)
        ≠ (((n + 1) ||| AC_ADDR_RQST : Nat) : Int)))]
    rw [hrec]
    congr 1
    · omega
    · simp [ascFrom, List.append_assoc]

/-- If addresses below k verify and k does not (a failed read or a
mismatching value), the inner loop stops at k and returns k - 1. -/
theorem searchInner_bad (verify : Nat → Int) (k : Nat)
    (hbad : verify k ≠ ((k ||| AC_ADDR_RQST : Nat) : Int)) :
    ∀ left n (xi : Int) (trace : List Nat), xi ≤ 1 → n < k → k ≤ n + left + 1 →
      (∀ m, n < m → m < k → verify m = ((m ||| AC_ADDR_RQST : Nat) : Int)) →
      searchInner verify left n xi trace
        = .done ⟨k - 1, trace ++ ascFrom n (k - n), false⟩ := by
  intro left
  induction left with
  | zero =>
    intro n xi trace hxi hnk hkle hbetween
    have hg1 : ¬ MAX_XFER ≤ xi := by simp only [MAX_XFER]; omega
    have hg2 : ¬ MAX_XFER ≤ xi + 2 := by simp only [MAX_XFER]; omega
    have hk : k = n + 1 := by omega
    subst hk
    have hsub : n + 1 - n = 1 := by omega
    simp only [searchInner]
    rw [if_neg hg1]
    simp only [if_neg hg2]
    rw [hsub]
    rcases lt_or_le (verify (n + 1)) 0 with hneg | hpos
    · rw [if_pos hneg]
      simp [ascFrom]
    · rw [if_neg (not_lt.mpr hpos), if_pos hbad]
      simp [ascFrom]
  | succ l ih =>
    intro n xi trace hxi hnk hkle hbetween
    have hg1 : ¬ MAX_XFER ≤ xi := by simp only [MAX_XFER]; omega
    have hg2 : ¬ MAX_XFER ≤ xi + 2 := by simp only [MAX_XFER]; omega
    by_cases hk : k = n + 1
    · subst hk
      have hsub : n + 1 - n = 1 := by omega
      simp only [searchInner]
      rw [if_neg hg1]
      simp only [if_neg hg2]
      rw [hsub]
      rcases lt_or_le (verify (n + 1)) 0 with hneg | hpos
      · rw [if_pos hneg]
        simp [ascFrom]
      · rw [if_neg (not_lt.mpr hpos), if_pos hbad]
        simp [ascFrom]
    · have hv := hbetween (n + 1) (by omega) (by omega)
      have hnn : ¬ ((((n + 1) ||| AC_ADDR_RQST : Nat) : Int) < 0) :=
        not_lt.mpr (Int.natCast_nonneg _)
      have hrec := ih (n + 1) (-1) (trace ++ [n + 1]) (by norm_num) (by omega)
        (by omega) (fun m hm1 hm2 => hbetween m (by omega) hm2)
      simp only [searchInner]
      rw [if_neg hg1]
      simp only [if_neg hg2]
      rw [hv, if_neg hnn, if_neg (by simp :
        ¬ ((((n + 1) ||| AC_ADDR_RQST : Nat) : Int)
          ≠ (((n + 1) ||| AC_ADDR_RQST : Nat) : Int)))]
      rw [hrec]
      have hsub : k - n = (k - (n + 1)) + 1 := by omega
      rw [hsub]
      congr 1
      simp [ascFrom, List.append_assoc]

/-- searchInner_good specialised to the shape the outer loop produces. -/
theorem searchInner_good_zero (verify : Nat → Int) (l : Nat) (t : List Nat)
    (hgood : ∀ m, 1 ≤ m → m ≤ l + 1 → verify m = ((m ||| AC_ADDR_RQST : Nat) : Int)) :
    searchInner verify l 0 (-1 + 1) t = .inner (l + 1) (t ++ ascFrom 0 (l + 1)) := by
  rw [searchInner_good verify l 0 (-1 + 1) t (by norm_num)
    (fun m hm1 hm2 => hgood m (by omega) (by omega))]
  congr 1
  omega

/-- searchInner_bad specialised to the shape the outer loop produces. -/
theorem searchInner_bad_zero (verify : Nat → Int) (k : Nat)
    (hbad : verify k ≠ ((k ||| AC_ADDR_RQST : Nat) : Int)) (l : Nat) (t : List Nat)
    (hk1 : 1 ≤ k) (hkle : k ≤ l + 1)
    (hbelow : ∀ m, 1 ≤ m → m < k → verify m = ((m ||| AC_ADDR_RQST : Nat) : Int)) :
    searchInner verify l 0 (-1 + 1) t = .done ⟨k - 1, t ++ ascFrom 0 k, false⟩ := by
  rw [searchInner_bad verify k hbad l 0 (-1 + 1) t (by norm_num) (by omega)
    (by omega) (fun m hm1 hm2 => hbelow m (by omega) hm2)]
  simp

/-- With every address up to D verifying, the outer loop ends with value D
and a trace whose final pass assigned 1..D in ascending order. -/
theorem searchOuter_good (verify : Nat → Int) (D : Nat)
    (hgood : ∀ m, 1 ≤ m → m ≤ D → verify m = ((m ||| AC_ADDR_RQST : Nat) : Int)) :
    ∀ fuel lookFor (trace : List Nat), lookFor < D → D ≤ lookFor + fuel →
      ∃ pre, searchOuter verify D fuel lookFor (-1) trace
        = some ⟨D, pre ++ ascFrom 0 D, false⟩ := by
  intro fuel
  induction fuel with
  | zero => intro l t h1 h2; omega
  | succ f ih =>
    intro l t h1 h2
    have hinner := searchInner_good_zero verify l t
      (fun m hm1 hm2 => hgood m (by omega) (by omega))
    by_cases hlt : l + 1 < D
    · obtain ⟨pre, hpre⟩ := ih (l + 1) (t ++ ascFrom 0 (l + 1)) hlt (by omega)
      refine ⟨pre, ?_⟩
      simp only [searchOuter]
      rw [if_neg (by decide : ¬ MAX_XFER ≤ (-1 : Int)), hinner]
      show (if l + 1 < D then
          searchOuter verify D f (l + 1) (-1) (t ++ ascFrom 0 (l + 1))
        else some ⟨l + 1, t ++ ascFrom 0 (l + 1), false⟩)
        = some ⟨D, pre ++ ascFrom 0 D, false⟩
      rw [if_pos hlt]
      exact hpre
    · have hD : l + 1 = D := by omega
      refine ⟨t, ?_⟩
      simp only [searchOuter]
      rw [if_neg (by decide : ¬ MAX_XFER ≤ (-1 : Int)), hinner]
      show (if l + 1 < D then
          searchOuter verify D f (l + 1) (-1) (t ++ ascFrom 0 (l + 1))
        else some ⟨l + 1, t ++ ascFrom 0 (l + 1), false⟩)
        = some ⟨D, t ++ ascFrom 0 D, false⟩
      rw [if_neg hlt, hD]

/-- With addresses below k verifying and k failing, the outer loop stops in
the pass that first probes k and returns k - 1. -/
theorem searchOuter_bad (verify : Nat → Int) (D k : Nat)
    (hbad : verify k ≠ ((k ||| AC_ADDR_RQST : Nat) : Int))
    (hbelow : ∀ m, 1 ≤ m → m < k → verify m = ((m ||| AC_ADDR_RQST : Nat) : Int))
    (hk1 : 1 ≤ k) (hkD : k ≤ D) :
    ∀ fuel lookFor (trace : List Nat), lookFor < k → k ≤ lookFor + fuel →
      ∃ tr, searchOuter verify D fuel lookFor (-1) trace
        = some ⟨k - 1, tr, false⟩ := by
  intro fuel
  induction fuel with
  | zero => intro l t h1 h2; omega
  | succ f ih =>
    intro l t h1 h2
    by_cases hkl : k ≤ l + 1
    · have hinner := searchInner_bad_zero verify k hbad l t hk1 hkl hbelow
      refine ⟨t ++ ascFrom 0 k, ?_⟩
      simp only [searchOuter]
      rw [if_neg (by decide : ¬ MAX_XFER ≤ (-1 : Int)), hinner]
    · have hinner := searchInner_good_zero verify l t
        (fun m hm1 hm2 => hbelow m (by omega) (by omega))
      have hlt : l + 1 < D := by omega
      obtain ⟨tr, htr⟩ := ih (l + 1) (t ++ ascFrom 0 (l + 1)) (by omega) (by omega)
      refine ⟨tr, ?_⟩
      simp only [searchOuter]
      rw [if_neg (by decide : ¬ MAX_XFER ≤ (-1 : Int)), hinner]
      show (if l + 1 < D then
          searchOuter verify D f (l + 1) (-1) (t ++ ascFrom 0 (l + 1))
        else some ⟨l + 1, t ++ ascFrom 0 (l + 1), false⟩)
        = some ⟨k - 1, tr, false⟩
      rw [if_pos hlt]
      exact htr

/-- The inner loop never exits through the writeRegister-failure branch when
entered with a small transfer index. -/
theorem searchInner_no_writeErr (verify : Nat → Int) :
    ∀ left n (xi : Int) (trace : List Nat) out, xi ≤ 1 →
      searchInner verify left n xi trace = .done out → out.writeErr = false := by
  intro left
  induction left with
  | zero =>
    intro n xi trace out hxi h
    have hg1 : ¬ MAX_XFER ≤ xi := by simp only [MAX_XFER]; omega
    have hg2 : ¬ MAX_XFER ≤ xi + 2 := by simp only [MAX_XFER]; omega
    simp only [searchInner] at h
    rw [if_neg hg1] at h
    simp only [if_neg hg2] at h
    rcases lt_or_le (verify (n + 1)) 0 with hneg | hpos
    · rw [if_pos hneg] at h
      injection h with h2
      subst h2
      rfl
    · rw [if_neg (not_lt.mpr hpos)] at h
      by_cases heq : verify (n + 1) = (((n + 1) ||| AC_ADDR_RQST : Nat) : Int)
      · rw [if_neg (by simp [heq])] at h
        simp at h
      · rw [if_pos heq] at h
        injection h with h2
        subst h2
        rfl
  | succ l ih =>
    intro n xi trace out hxi h
    have hg1 : ¬ MAX_XFER ≤ xi := by simp only [MAX_XFER]; omega
    have hg2 : ¬ MAX_XFER ≤ xi + 2 := by simp only [MAX_XFER]; omega
    simp only [searchInner] at h
    rw [if_neg hg1] at h
    simp only [if_neg hg2] at h
    rcases lt_or_le (verify (n + 1)) 0 with hneg | hpos
    · rw [if_pos hneg] at h
      injection h with h2
      subst h2
      rfl
    · rw [if_neg (not_lt.mpr hpos)] at h
      by_cases heq : verify (n + 1) = (((n + 1) ||| AC_ADDR_RQST : Nat) : Int)
      · rw [if_neg (by simp [heq])] at h
        exact ih (n + 1) (-1) (trace ++ [n + 1]) out (by norm_num) h
      · rw [if_pos heq] at h
        injection h with h2
        subst h2
        rfl

/-- The outer loop never returns through a writeRegister failure when
entered with a small transfer index. -/
theorem searchOuter_no_writeErr (verify : Nat → Int) (D : Nat) :
    ∀ fuel lookFor (xi : Int) (trace : List Nat) out, xi ≤ 0 →
      searchOuter verify D fuel lookFor xi trace = some out → out.writeErr = false := by
  intro fuel
  induction fuel with
  | zero => intro l xi t out hxi h; simp [searchOuter] at h
  | succ f ih =>
    intro l xi t out hxi h
    have hg1 : ¬ MAX_XFER ≤ xi := by simp only [MAX_XFER]; omega
    simp only [searchOuter] at h
    rw [if_neg hg1] at h
    rcases hres : searchInner verify l 0 (xi + 1) t with ⟨out2⟩ | ⟨n, tr⟩
    · rw [hres] at h
      simp only [Option.some.injEq] at h
      subst h
      exact searchInner_no_writeErr verify l 0 (xi + 1) t out2 (by omega) hres
    · rw [hres] at h
      simp only at h
      split at h
      · exact ih (l + 1) (-1) tr out (by norm_num) h
      · simp only [Option.some.injEq] at h
        subst h
        rfl

/-- C2: with D configured devices, a chain in which every address 1..D
verifies as n | AC_ADDR_RQST makes search_pack terminate with verified count
D, its final pass having assigned addresses 1..D contiguously in increasing
order; and if device k is the first whose verification read differs from
k | AC_ADDR_RQST, search_pack returns k - 1. -/
theorem search_pack_discovery (D : Nat) (verify : Nat → Int) (hD : 1 ≤ D) :
    ((∀ m, 1 ≤ m → m ≤ D → verify m = ((m ||| AC_ADDR_RQST : Nat) : Int)) →
      ∃ pre, search_pack verify D = some ⟨D, pre ++ ascFrom 0 D, false⟩)
    ∧ (∀ k, 1 ≤ k → k ≤ D →
        (∀ m, 1 ≤ m → m < k → verify m = ((m ||| AC_ADDR_RQST : Nat) : Int)) →
        verify k ≠ ((k ||| AC_ADDR_RQST : Nat) : Int) →
        ∃ tr, search_pack verify D = some ⟨k - 1, tr, false⟩) := by
  constructor
  · intro hgood
    exact searchOuter_good verify D hgood (D + 1) 0 [] (by omega) (by omega)
  · intro k hk1 hkD hbelow hbad
    exact searchOuter_bad verify D k hbad hbelow hk1 hkD (D + 1) 0 [] (by omega) (by omega)

/-- Witness for C2: two devices that verify correctly are both found. -/
theorem search_pack_discovery_witness :
    ∃ pre, search_pack (fun n => ((n ||| AC_ADDR_RQST : Nat) : Int)) 2
      = some ⟨2, pre ++ ascFrom 0 2, false⟩ :=
  (search_pack_discovery 2 (fun n => ((n ||| AC_ADDR_RQST : Nat) : Int))
    (by norm_num)).1 (fun m hm1 hm2 => rfl)

/-- C6: during discovery, a queued write never reports an error (the
transfer index never exceeds 2, so every search_pack result has its
writeErr flag clear), and a verification read that fails (negative value)
or mismatches makes search_pack abort at once with the count n - 1 of
devices fully verified so far. -/
theorem search_pack_abort_on_failure (D : Nat) (verify : Nat → Int) :
    (∀ out, search_pack verify D = some out → out.writeErr = false)
    ∧ (∀ k, 1 ≤ k → k ≤ D →
        (∀ m, 1 ≤ m → m < k → verify m = ((m ||| AC_ADDR_RQST : Nat) : Int)) →
        verify k ≠ ((k ||| AC_ADDR_RQST : Nat) : Int) →
        ∃ tr, search_pack verify D = some ⟨k - 1, tr, false⟩) := by
  constructor
  · intro out h
    exact searchOuter_no_writeErr verify D (D + 1) 0 (-1) [] out (by norm_num) h
  · intro k hk1 hkD hbelow hbad
    exact searchOuter_bad verify D k hbad hbelow hk1 hkD (D + 1) 0 [] (by omega) (by omega)

/-- Witness for C6: device 2 answering 0 instead of 2 | AC_ADDR_RQST makes
discovery of a 3-device configuration stop with count 1. -/
theorem search_pack_abort_on_failure_witness :
    ∃ tr, search_pack (fun n => if n = 2 then 0 else ((n ||| AC_ADDR_RQST : Nat) : Int)) 3
      = some ⟨1, tr, false⟩ :=
  (search_pack_abort_on_failure 3
      (fun n => if n = 2 then 0 else ((n ||| AC_ADDR_RQST : Nat) : Int))).2
    2 (by norm_num) (by norm_num) (by decide) (by decide)

/-! ## C5: the data-ready poll gives up after 7 reads, not 6 -/

/-- When the data-ready bit is never seen, every remaining iteration loops,
performing one read each, plus the final read of the give-up iteration. -/
theorem pollFrom_allEven (pr : Nat → Int) (h : ∀ i, Int.emod (pr i) 2 = 0) :
    ∀ left tries, pollFrom pr tries left = (false, left + 1) := by
  intro left
  induction left with
  | zero => intro t; rfl
  | succ l ih => intro t; simp [pollFrom, h t, ih (t + 1)]

/-- C5 counterexample: with a device that never reports data ready, the poll
loop of get_voltages performs 7 read attempts, not 6 — and get_voltages does
return the empty result. -/
theorem poll_six_counterexample :
    (pollLoop idleOracle.pollRead).2 = 7
    ∧ ¬ (pollLoop idleOracle.pollRead).2 = 6
    ∧ get_voltages idleOracle 4 1 (fun _ => 4) = [] := by
  exact ⟨by decide, by decide, by decide⟩

/-- C5 (amended): if the data-ready bit of device 1's status register is
never observed set, get_voltages performs exactly 7 polling read attempts
(the check tries++ > 5 fires on the 7th iteration, after its read) and then
returns the empty result rather than blocking or failing fatally. -/
theorem poll_giveup_empty (o : VoltOracle) (totalCellCount devicesUsed : Nat)
    (cpd : Nat → Nat) (hs : o.startStatus = 0)
    (h : ∀ i, Int.emod (o.pollRead i) 2 = 0) :
    get_voltages o totalCellCount devicesUsed cpd = []
    ∧ pollLoop o.pollRead = (false, 7) := by
  have hp : pollLoop o.pollRead = (false, 7) := by
    have := pollFrom_allEven o.pollRead h 6 0
    simpa [pollLoop] using this
  refine ⟨?_, hp⟩
  simp [get_voltages, hs, hp]

/-- Witness for the amended C5 at the concrete never-ready oracle. -/
theorem poll_giveup_empty_witness :
    get_voltages idleOracle 4 1 (fun _ => 4) = []
    ∧ pollLoop idleOracle.pollRead = (false, 7) :=
  poll_giveup_empty idleOracle 4 1 (fun _ => 4) rfl (fun _ => rfl)

/-! ## The successful telemetry cycle -/

/-- On a successful cycle the output is the body followed by its CRC-8. -/
theorem get_voltages_body (o : VoltOracle) (totalCellCount devicesUsed : Nat)
    (cpd : Nat → Nat) (hs : o.startStatus = 0)
    (hr : (pollLoop o.pollRead).1 = true) :
    get_voltages o totalCellCount devicesUsed cpd
      = telemetryBody o totalCellCount devicesUsed cpd
        ++ [crc8 (telemetryBody o totalCellCount devicesUsed cpd)] := by
  simp [get_voltages, hs, hr]

/-- The body length: 1 count byte + the voltage bytes + 1 count byte + 8
bytes per device. -/
theorem telemetryBody_length (o : VoltOracle) (totalCellCount devicesUsed : Nat)
    (cpd : Nat → Nat) :
    (telemetryBody o totalCellCount devicesUsed cpd).length
      = totalCellCount + 8 * devicesUsed + 2 := by
  have hmap : List.map List.length
        ((List.range devicesUsed).map (fun i0 => deviceBlock o cpd (i0 + 1)))
      = List.replicate devicesUsed 8 := by
    rw [List.map_map]
    have hconst : (List.length ∘ fun i0 => deviceBlock o cpd (i0 + 1))
        = fun _ : Nat => 8 := funext fun i0 => rfl
    rw [hconst]
    calc List.map (fun _ : Nat => 8) (List.range devicesUsed)
        = List.replicate (List.range devicesUsed).length 8 := List.map_const _ 8
      _ = List.replicate devicesUsed 8 := by rw [List.length_range]
  simp only [telemetryBody, List.length_cons, List.length_append, List.length_map,
    List.length_range, List.length_flatten, hmap, List.sum_replicate, smul_eq_mul]
  omega

/-- The byte at position 1 + i of the body is the rescaled i-th cell
reading. -/
theorem telemetryBody_voltage (o : VoltOracle) (totalCellCount devicesUsed : Nat)
    (cpd : Nat → Nat) (i : Nat) (hi : i < totalCellCount) :
    (telemetryBody o totalCellCount devicesUsed cpd)[1 + i]?
      = some (voltByte (o.cellRead i)) := by
  simp only [telemetryBody]
  rw [Nat.add_comm 1 i, List.getElem?_cons_succ, List.getElem?_append,
    if_pos (by simpa using hi), List.getElem?_map, List.getElem?_range hi]
  rfl

/-! ## C8: the trailing telemetry CRC -/

/-- C8: on every successfully produced telemetry buffer, the trailing byte
is the CRC-8 (poly x^8+x^2+x^1+x^0, init 0) of every preceding byte:
recomputing the CRC over all bytes but the last reproduces the last byte. -/
theorem telemetry_trailing_crc (o : VoltOracle) (totalCellCount devicesUsed : Nat)
    (cpd : Nat → Nat) (hs : o.startStatus = 0)
    (hr : (pollLoop o.pollRead).1 = true) :
    (get_voltages o totalCellCount devicesUsed cpd).getLast?
      = some (crc8 (get_voltages o totalCellCount devicesUsed cpd).dropLast) := by
  rw [get_voltages_body o totalCellCount devicesUsed cpd hs hr,
    List.dropLast_concat, List.getLast?_concat]

/-- Witness for C8 at a concrete successful cycle. -/
theorem telemetry_trailing_crc_witness :
    (get_voltages okOracle 2 1 (fun _ => 4)).getLast?
      = some (crc8 (get_voltages okOracle 2 1 (fun _ => 4)).dropLast) :=
  telemetry_trailing_crc okOracle 2 1 (fun _ => 4) rfl (by decide)

/-! ## C4: the voltage rescale emits a truncated, wrapped byte, not a
rounded one -/

/-- C4 counterexample: at raw16 = 65535 the emitted byte is 226, while the
claimed round(65535 * 6250 / 327660) is 1250, which is neither the emitted
byte nor at most 255. -/
theorem voltage_round_counterexample :
    (get_voltages maxOracle 1 0 (fun _ => 0))[1]? = some 226
    ∧ roundDivSpec (65535 * 6250) 327660 = 1250
    ∧ ¬ (226 : Nat) = 1250
    ∧ ¬ ((1250 : Nat) ≤ 255) := by
  exact ⟨by decide, by decide, by decide, by decide⟩

/-- C4 (amended): the emitted voltage byte is the C truncating division
(raw16 * 6250) / 327660 reduced mod 256 by the u8 store; raw16 = 0 gives
byte 0, raw16 = 65535 gives truncated quotient 1250 and stored byte 226,
and the 32-bit intermediate product 65535 * 6250 does not overflow. -/
theorem voltage_byte_formula (o : VoltOracle) (totalCellCount devicesUsed : Nat)
    (cpd : Nat → Nat) (i : Nat) (hs : o.startStatus = 0)
    (hr : (pollLoop o.pollRead).1 = true) (hi : i < totalCellCount) :
    (get_voltages o totalCellCount devicesUsed cpd)[1 + i]?
        = some (voltByte (o.cellRead i))
    ∧ voltByte 0 = 0
    ∧ Int.tdiv (65535 * 6250) 327660 = 1250
    ∧ voltByte 65535 = 226
    ∧ (65535 * 6250 : Int) < 2 ^ 31 := by
  refine ⟨?_, by decide, by decide, by decide, by decide⟩
  rw [get_voltages_body o totalCellCount devicesUsed cpd hs hr,
    List.getElem?_append, if_pos]
  · exact telemetryBody_voltage o totalCellCount devicesUsed cpd i hi
  · rw [telemetryBody_length]
    omega

/-- Witness for the amended C4 at a concrete cycle. -/
theorem voltage_byte_formula_witness :
    (get_voltages maxOracle 1 0 (fun _ => 0))[1 + 0]?
      = some (voltByte (maxOracle.cellRead 0)) :=
  (voltage_byte_formula maxOracle 1 0 (fun _ => 0) 0 rfl (by decide) (by decide)).1

/-! ## C10: read errors inside the emission loops are emitted as data -/

set_option maxRecDepth 4000 in
/-- C10: the emission loops of get_voltages never check whether a register
read failed: the output length is the full
1 + cell_count + 1 + 8 * device_count + 1 whatever the reads return, a
negative cell read is rescaled and stored like any reading, and with every
read failing with -EFAULT the buffer is fully populated with the transformed
error code (voltage byte 0, temperature bytes 239, status bytes 242) plus a
valid CRC. -/
theorem get_voltages_ignores_read_errors (o : VoltOracle)
    (totalCellCount devicesUsed : Nat) (cpd : Nat → Nat)
    (hs : o.startStatus = 0) (hr : (pollLoop o.pollRead).1 = true) :
    (get_voltages o totalCellCount devicesUsed cpd).length
        = totalCellCount + 8 * devicesUsed + 3
    ∧ (∀ i, i < totalCellCount →
        (get_voltages o totalCellCount devicesUsed cpd)[1 + i]?
          = some (voltByte (o.cellRead i)))
    ∧ voltByte (-EFAULT) = 0 ∧ tempByte (-EFAULT) = 239 ∧ toByte (-EFAULT) = 242
    ∧ get_voltages errOracle 1 1 (fun _ => 4)
        = [1, 0, 1, 4, 239, 239, 242, 242, 242, 242, 242]
          ++ [crc8 [1, 0, 1, 4, 239, 239, 242, 242, 242, 242, 242]] := by
  refine ⟨?_, ?_, by decide, by decide, by decide, by decide⟩
  · rw [get_voltages_body o totalCellCount devicesUsed cpd hs hr,
      List.length_append, telemetryBody_length]
    simp
  · intro i hi
    rw [get_voltages_body o totalCellCount devicesUsed cpd hs hr,
      List.getElem?_append, if_pos]
    · exact telemetryBody_voltage o totalCellCount devicesUsed cpd i hi
    · rw [telemetryBody_length]
      omega

/-- Witness for C10 at the all-errors oracle. -/
theorem get_voltages_ignores_read_errors_witness :
    (get_voltages errOracle 3 2 (fun _ => 4)).length = 3 + 8 * 2 + 3 :=
  (get_voltages_ignores_read_errors errOracle 3 2 (fun _ => 4) rfl (by decide)).1

/-! ## C7: the cell census -/

/-- Membership in the cells table: exactly the taps of devices 1..count at
VCELL offsets whose reading exceeds the threshold. -/
theorem cellsTable_mem (read : Nat → Nat → Int) (count : Nat) (i j : Nat) :
    (i, j) ∈ cellsTable read count ↔
      (1 ≤ i ∧ i ≤ count ∧ j ∈ vcellOffsets ∧ CELL_MISSING_THRESHOLD < read i j) := by
  simp only [cellsTable, List.mem_flatMap, List.mem_map, List.mem_filter,
    List.mem_range, decide_eq_true_eq]
  constructor
  · rintro ⟨i0, hi0, j2, ⟨hj2off, hj2thr⟩, heq⟩
    injection heq with h1 h2
    subst h1
    subst h2
    exact ⟨by omega, by omega, hj2off, hj2thr⟩
  · rintro ⟨h1, h2, hoff, hthr⟩
    refine ⟨i - 1, by omega, j, ⟨?_, ?_⟩, ?_⟩
    · exact hoff
    · rw [Nat.sub_add_cancel h1]
      exact hthr
    · rw [Nat.sub_add_cancel h1]

/-- The length of the cells table is the accumulated total_cell_count. -/
theorem cellsTable_length (read : Nat → Nat → Int) (count : Nat) :
    (cellsTable read count).length = totalCellCount read count := by
  simp only [cellsTable, totalCellCount, chipCellCount, List.length_flatMap]
  exact congrArg List.sum (List.map_congr_left (fun a ha => by
    simp [Function.comp]))

/-- The cells table is ordered by device address, then register offset. -/
theorem cellsTable_sorted (read : Nat → Nat → Int) (count : Nat) :
    List.Pairwise tapLt (cellsTable read count) := by
  induction count with
  | zero => simp [cellsTable]
  | succ n ih =>
    have hsplit : cellsTable read (n + 1)
        = cellsTable read n
          ++ (vcellOffsets.filter
              (fun j => CELL_MISSING_THRESHOLD < read (n + 1) j)).map
                (fun j => (n + 1, j)) := by
      simp only [cellsTable, List.range_succ, List.flatMap_append, List.flatMap_cons,
        List.flatMap_nil, List.append_nil]
    rw [hsplit, List.pairwise_append]
    refine ⟨ih, ?_, ?_⟩
    · have hoff : List.Pairwise (fun a b : Nat => a < b) vcellOffsets := by decide
      rw [List.pairwise_map]
      exact (List.Pairwise.filter _ hoff).imp (fun hab => Or.inr ⟨rfl, hab⟩)
    · intro a ha b hb
      obtain ⟨j2, hj2, rfl⟩ := List.mem_map.mp hb
      rcases a with ⟨a1, a2⟩
      have hmem := (cellsTable_mem read n a1 a2).mp ha
      exact Or.inl (by omega)

/-- C7: the census marks a tap (device i, offset j) populated iff its raw
reading strictly exceeds CELL_MISSING_THRESHOLD = 1000; total_cell_count
equals the number of entries of the cells table; and the table is ordered by
(device address, register offset) ascending. -/
theorem census_taps (read : Nat → Nat → Int) (count : Nat) :
    (∀ i j, (i, j) ∈ cellsTable read count ↔
      (1 ≤ i ∧ i ≤ count ∧ j ∈ vcellOffsets ∧ CELL_MISSING_THRESHOLD < read i j))
    ∧ (cellsTable read count).length = totalCellCount read count
    ∧ List.Pairwise tapLt (cellsTable read count) :=
  ⟨fun i j => cellsTable_mem read count i j,
   cellsTable_length read count, cellsTable_sorted read count⟩

end Bq76
